import Mathlib

/-!
A shallow embedding of the `spf` Go package (SPF record parsing and
evaluation) together with proofs about its behaviour.

The embedding follows the current revision of the sources:
`mechanism.go` (the `Mechanism` type, `parseMechanism`, `NewMechanism`,
`Valid`, `SPFString`, `Evaluate`) and the DNS helpers file
(`networkCIDR`, `ipInNetworks`, `buildNetworks`, `aNetworks`,
`mxNetworks`, `testPTR`).  The repository's history contains several
superseded revisions of `spf.go`; the current revision (the
three-argument `NewSPF` with the lookup budget, `SPF.Test` and
`SPFTest`) is not among the provided sources, so those functions are
modelled from the specification, as marked in their doc comments.

Go strings are modelled by Lean `String` (a wrapper around `List Char`);
all index arithmetic of the Go code (`strings.Index`, slicing) is done
on the character list, which agrees with Go's byte indices on the ASCII
inputs the package manipulates.  DNS lookups are a parameter: the
`Resolver` structure carries the four lookup functions of the `net`
package that the code uses.  A Go function returning `(T, error)` is
modelled by `Except E T` (or `Option` where only match/no-match is
observed), and the one place where the Go code can panic
(`NewMechanism` on an empty token) is modelled by `Option`.
-/

namespace Spf

/-- The `Result` string constants of `mechanism.go`. -/
inductive Result where
  | Pass
  | Neutral
  | Fail
  | SoftFail
  | None
  | TempError
  | PermError
deriving DecidableEq, Repr

/-- The error values of the package (`ErrInvalidSPF`, `ErrInvalidMechanism`,
`ErrIncludeLoop`, `ErrNoRecord`, `ErrFailedLookup`, `ErrMaxCount`), plus
`Format` for the "Email address must contain an @ sign." error of `SPFTest`. -/
inductive SPFError where
  | InvalidSPF
  | InvalidMechanism
  | IncludeLoop
  | NoRecord
  | FailedLookup
  | MaxCount
  | Format
deriving DecidableEq, Repr

/-- `Mechanism` of `mechanism.go`: one directive of an SPF record. -/
structure Mechanism where
  Name : String
  Domain : String
  Prefix : String
  Result : Result
  Count : Nat
deriving DecidableEq, Repr

/-- `SPF` of `spf.go`: a parsed record, with the lookup-budget counter. -/
structure SPF where
  Raw : String
  Domain : String
  Version : String
  Mechanisms : List Mechanism
  Count : Nat
deriving DecidableEq, Repr

/-- The DNS functions of the `net` package used by the code, abstracted:
`LookupTXT`, `LookupHost`, `LookupMX` (the exchanger host names) and
`LookupAddr`.  An `Except.error` models a non-nil Go error. -/
structure Resolver where
  lookupTXT : String → Except Unit (List String)
  lookupHost : String → Except Unit (List String)
  lookupMX : String → Except Unit (List String)
  lookupAddr : String → Except Unit (List String)

/-! ### Character-list utilities (models of `strings` functions) -/

/-- Index of the first occurrence of a character (`strings.Index` with a
one-character needle; `none` models Go's `-1`). -/
def charIdx : List Char → Char → Option Nat
  | [], _ => none
  | c :: rest, t => if c = t then some 0 else (charIdx rest t).map (· + 1)

/-- Split at every character satisfying `p` (separators are consumed;
empty pieces are kept, as with `strings.Split`). -/
def splitOnP (p : Char → Bool) : List Char → List (List Char)
  | [] => [[]]
  | c :: rest =>
    if p c then [] :: splitOnP p rest
    else
      match splitOnP p rest with
      | [] => [[c]]
      | t :: ts => (c :: t) :: ts

/-- `strings.HasPrefix`. -/
def strHasPrefix (s pre : String) : Bool :=
  pre.data.isPrefixOf s.data

/-- `strings.HasSuffix`. -/
def strHasSuffix (s suf : String) : Bool :=
  suf.data.isSuffixOf s.data

/-- `s[n:]` on a Go string. -/
def strDrop (s : String) (n : Nat) : String :=
  String.mk (s.data.drop n)

/-- `strings.Fields`: whitespace-separated fields, empty pieces dropped. -/
def fields (s : String) : List String :=
  ((splitOnP (fun c => c.isWhitespace) s.data).filter (· ≠ [])).map String.mk

/-! ### IP addresses (model of the `net` address functions used) -/

/-- Decimal value of a digit list, `none` on a non-digit. -/
def digitsVal : List Char → Option Nat
  | [] => some 0
  | c :: rest =>
    if c.isDigit then
      (digitsVal rest).map (fun v => (c.toNat - 48) * 10 ^ rest.length + v)
    else none

/-- One dotted-decimal field of an IPv4 address: 1–3 digits, no leading
zero, value at most 255. -/
def parseByte (g : List Char) : Option Nat :=
  if g = [] then none
  else if 3 < g.length then none
  else if 1 < g.length ∧ g.head? = some '0' then none
  else
    match digitsVal g with
    | some v => if v ≤ 255 then some v else none
    | none => none

/-- Dotted-quad IPv4 parse, returning the four bytes. -/
def parseV4 (l : List Char) : Option (List Nat) :=
  match splitOnP (· = '.') l with
  | [a, b, c, d] =>
    match parseByte a, parseByte b, parseByte c, parseByte d with
    | some x1, some x2, some x3, some x4 => some [x1, x2, x3, x4]
    | _, _, _, _ => none
  | _ => none

/-- The 16-byte form of an IPv4 address (Go's `v4InV6Prefix` mapping). -/
def v4InV6 (bs : List Nat) : List Nat :=
  [0, 0, 0, 0, 0, 0, 0, 0, 0, 0, 255, 255] ++ bs

/-- Value of a hexadecimal digit. -/
def hexVal (c : Char) : Option Nat :=
  if c.isDigit then some (c.toNat - 48)
  else if 'a' ≤ c ∧ c ≤ 'f' then some (c.toNat - 97 + 10)
  else if 'A' ≤ c ∧ c ≤ 'F' then some (c.toNat - 65 + 10)
  else none

/-- Value of a hex-digit list (`none` on a non-hex character). -/
def hexDigitsVal : List Char → Option Nat
  | [] => some 0
  | c :: rest =>
    match hexVal c with
    | some h => (hexDigitsVal rest).map (fun v => h * 16 ^ rest.length + v)
    | none => none

/-- One 16-bit group of an IPv6 address: 1–4 hex digits. -/
def parseHexGroup (g : List Char) : Option Nat :=
  if g = [] then none
  else if 4 < g.length then none
  else hexDigitsVal g

/-- Bytes of a colon-separated group list whose last group may be an
embedded dotted-quad IPv4 address. -/
def sectionBytes : List (List Char) → Option (List Nat)
  | [] => some []
  | [g] =>
    if g.contains '.' then parseV4 g
    else (parseHexGroup g).map (fun v => [v / 256, v % 256])
  | g :: gs =>
    (parseHexGroup g).bind fun v =>
      (sectionBytes gs).map (fun bs => v / 256 :: v % 256 :: bs)

/-- Bytes of a group list that may not contain an embedded IPv4 part. -/
def hexGroupsBytes : List (List Char) → Option (List Nat)
  | [] => some []
  | g :: gs =>
    (parseHexGroup g).bind fun v =>
      (hexGroupsBytes gs).map (fun bs => v / 256 :: v % 256 :: bs)

/-- Index of the first `::`. -/
def ddIdx : List Char → Option Nat
  | ':' :: ':' :: _ => some 0
  | _ :: rest => (ddIdx rest).map (· + 1)
  | [] => none

/-- IPv6 textual parse, returning the sixteen bytes. -/
def parseV6 (l : List Char) : Option (List Nat) :=
  match ddIdx l with
  | some i =>
    let left := l.take i
    let right := l.drop (i + 2)
    if ddIdx right ≠ none then none
    else
      let lg := if left = [] then [] else splitOnP (· = ':') left
      let rg := if right = [] then [] else splitOnP (· = ':') right
      match hexGroupsBytes lg, sectionBytes rg with
      | some bl, some br =>
        if bl.length + br.length ≤ 14 then
          some (bl ++ List.replicate (16 - bl.length - br.length) 0 ++ br)
        else none
      | _, _ => none
  | none =>
    match sectionBytes (splitOnP (· = ':') l) with
    | some bs => if bs.length = 16 then some bs else none
    | none => none

/-- `net.ParseIP`: the first `.` or `:` selects the address family, as in
Go's parser; the result is the 16-byte form. -/
def ipClass : List Char → Option Bool
  | [] => none
  | '.' :: _ => some true
  | ':' :: _ => some false
  | _ :: rest => ipClass rest

/-- `net.ParseIP` (16-byte result, `none` for an invalid literal). -/
def parseIP (s : String) : Option (List Nat) :=
  match ipClass s.data with
  | some true => (parseV4 s.data).map v4InV6
  | some false => parseV6 s.data
  | none => none

/-- `IP.To4`: the 4-byte form of an address that is IPv4 or 4-in-6 mapped. -/
def To4 (ip : List Nat) : Option (List Nat) :=
  if ip.length = 4 then some ip
  else if ip.length = 16 ∧ ip.take 12 = [0, 0, 0, 0, 0, 0, 0, 0, 0, 0, 255, 255] then
    some (ip.drop 12)
  else none

/-- `net.IPNet`: a base address (already masked) and a mask length. -/
structure IPNet where
  ip : List Nat
  bits : Nat
deriving DecidableEq, Repr

/-- Zero the bits of a byte list beyond the first `bits` bits. -/
def maskBytesAux : Nat → List Nat → List Nat
  | _, [] => []
  | bits, b :: rest =>
    (if 8 ≤ bits then b
     else if bits = 0 then 0
     else b / 2 ^ (8 - bits) * 2 ^ (8 - bits)) :: maskBytesAux (bits - 8) rest

/-- Decimal mask text of a CIDR (digits only). -/
def parseMaskDigits (l : List Char) : Option Nat :=
  if l = [] then none
  else if l.all (·.isDigit) then digitsVal l
  else none

/-- `net.ParseCIDR`: split at the first `/`, parse the address per family
and the decimal mask length, and return the masked network. -/
def ParseCIDR (s : String) : Except Unit IPNet :=
  match charIdx s.data '/' with
  | none => .error ()
  | some i =>
    let addr := s.data.take i
    let mask := s.data.drop (i + 1)
    match ipClass addr with
    | some true =>
      match parseV4 addr, parseMaskDigits mask with
      | some bs, some m => if m ≤ 32 then .ok ⟨maskBytesAux m bs, m⟩ else .error ()
      | _, _ => .error ()
    | some false =>
      match parseV6 addr, parseMaskDigits mask with
      | some bs, some m => if m ≤ 128 then .ok ⟨maskBytesAux m bs, m⟩ else .error ()
      | _, _ => .error ()
    | none => .error ()

/-- `IPNet.Contains`, taking the (possibly failed) parse of the candidate. -/
def IPNet.ContainsIP (n : IPNet) (oip : Option (List Nat)) : Bool :=
  match oip with
  | none => false
  | some ip =>
    let aligned : Option (List Nat) :=
      if n.ip.length = 4 then To4 ip
      else some (if ip.length = 4 then v4InV6 ip else ip)
    match aligned with
    | none => false
    | some x => maskBytesAux n.bits x == n.ip

/-- `networkCIDR` of the DNS helpers file: an empty prefix is replaced by
the full width of the address family (`ip.To4() != nil` selects 32,
otherwise 128 — also when the address fails to parse, since in Go
`nil.To4()` is `nil`), then the `addr/prefix` string is given to
`ParseCIDR`. -/
def networkCIDR (addr pfx : String) : Except Unit IPNet :=
  let pfx2 :=
    if pfx = "" then
      match parseIP addr with
      | some ip => if (To4 ip).isSome then "32" else "128"
      | none => "128"
    else pfx
  ParseCIDR (addr ++ "/" ++ pfx2)

/-- `ipInNetworks`. -/
def ipInNetworks (client : Option (List Nat)) (networks : List IPNet) : Bool :=
  networks.any (fun n => n.ContainsIP client)

/-- `buildNetworks`: one network per address, parse failures skipped. -/
def buildNetworks (ips : List String) (pfx : String) : List IPNet :=
  ips.filterMap (fun ip => (networkCIDR ip pfx).toOption)

/-- `aNetworks` (the lookup error is ignored, leaving no addresses). -/
def aNetworks (env : Resolver) (m : Mechanism) : List IPNet :=
  buildNetworks
    (match env.lookupHost m.Domain with | .ok ips => ips | .error _ => [])
    m.Prefix

/-- `mxNetworks`. -/
def mxNetworks (env : Resolver) (m : Mechanism) : List IPNet :=
  (match env.lookupMX m.Domain with | .ok mxs => mxs | .error _ => []).flatMap
    (fun host =>
      buildNetworks
        (match env.lookupHost host with | .ok ips => ips | .error _ => [])
        m.Prefix)

/-- `testPTR`: reverse-resolve the client and look for a name ending in
the mechanism's domain. -/
def testPTR (env : Resolver) (m : Mechanism) (client : String) : Bool :=
  match env.lookupAddr client with
  | .error _ => false
  | .ok names => names.any (fun nm => strHasSuffix nm m.Domain)

/-! ### The directive parser (`mechanism.go`) -/

/-- `parseMechanism` of `mechanism.go`: split one (sigil-stripped) token
at the first `=`, `:` and `/` into name, domain and prefix.  The Go
`switch` tries, in order: the `=` form; `name:domain/prefix` (when the
first `:` comes before the first `/`); `name:domain`; `name/prefix`;
bare `name`.  A split that leaves an empty domain or prefix is an
`ErrInvalidMechanism`. -/
def parseMechanism (r : Result) (str domain : String) : Except SPFError Mechanism :=
  match charIdx str.data '=' with
  | some ei =>
    let d := String.mk (str.data.drop (ei + 1))
    if d = "" then .error .InvalidMechanism
    else .ok ⟨String.mk (str.data.take ei), d, "", r, 0⟩
  | none =>
    match charIdx str.data ':', charIdx str.data '/' with
    | some ci, some pi2 =>
      if ci < pi2 then
        let d := String.mk ((str.data.take pi2).drop (ci + 1))
        let p := String.mk (str.data.drop (pi2 + 1))
        if d = "" ∨ p = "" then .error .InvalidMechanism
        else .ok ⟨String.mk (str.data.take ci), d, p, r, 0⟩
      else
        let d := String.mk (str.data.drop (ci + 1))
        if d = "" then .error .InvalidMechanism
        else .ok ⟨String.mk (str.data.take ci), d, "", r, 0⟩
    | some ci, none =>
      let d := String.mk (str.data.drop (ci + 1))
      if d = "" then .error .InvalidMechanism
      else .ok ⟨String.mk (str.data.take ci), d, "", r, 0⟩
    | none, some pi2 =>
      let p := String.mk (str.data.drop (pi2 + 1))
      if p = "" then .error .InvalidMechanism
      else .ok ⟨String.mk (str.data.take pi2), domain, p, r, 0⟩
    | none, none => .ok ⟨str, domain, "", r, 0⟩

/-- `NewMechanism` of `mechanism.go`: map a leading `- ~ + ?` sigil to the
qualifier and parse the rest.  The Go code indexes `str[0]`
unconditionally, so the empty token panics; the panic is modelled by
`none`. -/
def NewMechanism (str domain : String) : Option (Except SPFError Mechanism) :=
  match str.data with
  | [] => none
  | c :: rest =>
    if c = '-' then some (parseMechanism .Fail (String.mk rest) domain)
    else if c = '~' then some (parseMechanism .SoftFail (String.mk rest) domain)
    else if c = '+' then some (parseMechanism .Pass (String.mk rest) domain)
    else if c = '?' then some (parseMechanism .Neutral (String.mk rest) domain)
    else some (parseMechanism .Pass str domain)

/-- `Mechanism.Valid` of `mechanism.go`. -/
def Mechanism.Valid (m : Mechanism) : Bool :=
  let hasResult :=
    match m.Result with
    | .Pass | .Fail | .SoftFail | .Neutral => true
    | _ => false
  let hasName :=
    ["all", "a", "mx", "ip4", "ip6", "exists", "include", "ptr", "redirect"].contains m.Name
  let isIP :=
    if m.Name = "ip4" ∨ m.Name = "ip6" then (parseIP m.Domain).isSome else true
  hasResult && hasName && isIP

/-- `Mechanism.ResultTag` of `mechanism.go`. -/
def Mechanism.ResultTag (m : Mechanism) : String :=
  match m.Result with
  | .Fail => "-"
  | .SoftFail => "~"
  | .Pass => "+"
  | .Neutral => "?"
  | _ => "+"

/-- `Mechanism.SPFString` of `mechanism.go`: `redirect` renders as
`redirect=domain` (no sigil, no prefix), `all` renders as sigil + `all`
(the `+` sigil included), every other kind renders the sigil only when
it is not `+`, then the name, `:domain` when the domain is non-empty and
`/prefix` when the prefix is non-empty. -/
def Mechanism.SPFString (m : Mechanism) : String :=
  let tag := m.ResultTag
  if m.Name = "redirect" then m.Name ++ "=" ++ m.Domain
  else if m.Name = "all" then tag ++ m.Name
  else
    (if tag ≠ "+" then tag else "") ++ m.Name ++
      (if m.Domain ≠ "" then ":" ++ m.Domain else "") ++
      (if m.Prefix ≠ "" then "/" ++ m.Prefix else "")

/-- `render ∘ parse` on one directive token: the `SPFString` rendering of
the mechanism `NewMechanism` produces, when parsing succeeds. -/
def roundTrip (tok dom : String) : Option String :=
  match NewMechanism tok dom with
  | some (.ok m) => some m.SPFString
  | _ => none

/-! ### The record builder

The current revision of `spf.go` (the three-argument `NewSPF` carrying
the lookup budget) is not among the provided sources — only superseded
revisions and its callers in `mechanism.go` are — so `getSPFRecord`,
`buildSPF` and `NewSPF` below are modelled from the specification
(§4.3), reusing the older in-source `NewSPF` where the two agree (the
version-marker check, per-token parsing and validity check, and the
direct self-include guard). -/

/-- The directive kinds whose evaluation may trigger a DNS lookup. -/
def lookupKinds : List String :=
  ["a", "mx", "ptr", "exists", "include", "redirect"]

/-- Modelled from the spec: fetching the record text for a domain (§4.3
step 1): a transport failure of the TXT lookup is `ErrFailedLookup`; the
first TXT record starting with `v=spf1` is the record; none found is
`ErrNoRecord`. -/
def getSPFRecord (env : Resolver) (domain : String) : Except SPFError String :=
  match env.lookupTXT domain with
  | .error _ => .error .FailedLookup
  | .ok records =>
    match records.find? (fun r => strHasPrefix r "v=spf1") with
    | some r => .ok r
    | none => .error .NoRecord

/-- Modelled from the spec: the token loop of the record builder (§4.3
steps 3–5).  A `v=`-prefixed token sets the version; every other token
is parsed and checked (`ErrInvalidMechanism` on a parse error or an
invalid mechanism), a directive of kind `include` whose domain equals
the owning domain is `ErrIncludeLoop`, the running budget is incremented
for every lookup-incurring kind and stamped on the mechanism, and after
the last token the budget ceiling is enforced (`ErrMaxCount` at 10). -/
def buildSPF (domain raw : String) :
    List String → String → List Mechanism → Nat → Except SPFError SPF
  | [], ver, ms, cnt =>
    if 10 ≤ cnt then .error .MaxCount else .ok ⟨raw, domain, ver, ms, cnt⟩
  | f :: rest, ver, ms, cnt =>
    if strHasPrefix f "v=" then buildSPF domain raw rest (strDrop f 2) ms cnt
    else
      match NewMechanism f domain with
      | none => .error .InvalidMechanism
      | some (.error e) => .error e
      | some (.ok m) =>
        if m.Valid then
          if m.Name = "include" ∧ m.Domain = domain then .error .IncludeLoop
          else
            let cnt2 := if lookupKinds.contains m.Name then cnt + 1 else cnt
            buildSPF domain raw rest ver (ms ++ [{ m with Count := cnt2 }]) cnt2
        else .error .InvalidMechanism

/-- Modelled from the spec: `NewSPF(domain, record, count)` — build the
policy record for `domain`, fetching the text when `record` is empty,
requiring the `v=spf1` marker (`ErrInvalidSPF` otherwise) and running
the token loop with the inherited budget `count`. -/
def NewSPF (env : Resolver) (domain record : String) (count : Nat) :
    Except SPFError SPF :=
  match (if record = "" then getSPFRecord env domain else .ok record) with
  | .error e => .error e
  | .ok rec2 =>
    if strHasPrefix rec2 "v=spf1" then buildSPF domain rec2 (fields rec2) "" [] count
    else .error .InvalidSPF

/-! ### The evaluation engine -/

/-- The dispatch of `Mechanism.Evaluate` of `mechanism.go` with the
recursive record evaluation abstracted as `test` (it is instantiated
with `TestF` below).  `none` models Go's `(None, ErrNoMatch)` return —
the mechanism did not match — and `some r` models `(r, nil)`.  For
`include`, a build failure other than `ErrNoRecord`/`ErrMaxCount` does
not match (the Go code would evaluate the partially built record the
missing `NewSPF` revision returns alongside the error; the spec fixes
this case to "skip to the next directive"). -/
def evaluateStep (env : Resolver) (test : SPF → Result) (m : Mechanism)
    (ip : String) (count : Nat) : Option Result :=
  if m.Name = "all" then some m.Result
  else if m.Name = "exists" then
    match env.lookupHost m.Domain with
    | .ok _ => some m.Result
    | .error _ => none
  else if m.Name = "redirect" then
    match NewSPF env m.Domain "" count with
    | .error .FailedLookup => some .TempError
    | .error _ => some .PermError
    | .ok spf => some (test spf)
  else if m.Name = "include" then
    match NewSPF env m.Domain "" count with
    | .error e => if e = .NoRecord ∨ e = .MaxCount then some .PermError else none
    | .ok spf =>
      let result := test spf
      if result = .Pass ∨ result = .PermError then some result else none
  else if m.Name = "a" then
    if ipInNetworks (parseIP ip) (aNetworks env m) then some m.Result else none
  else if m.Name = "mx" then
    if ipInNetworks (parseIP ip) (mxNetworks env m) then some m.Result else none
  else if m.Name = "ptr" then
    if testPTR env m ip then some m.Result else none
  else
    match networkCIDR m.Domain m.Prefix with
    | .ok network => if network.ContainsIP (parseIP ip) then some m.Result else none
    | .error _ => none

/-- The mechanism loop of `SPF.Test`: the first mechanism whose
evaluation returns a result (a nil Go error) decides; `Neutral` when
none does. -/
def firstResult (eval : Mechanism → Option Result) : List Mechanism → Result
  | [] => .Neutral
  | m :: rest =>
    match eval m with
    | some r => r
    | none => firstResult eval rest

/-- Modelled from the spec: `SPF.Test`, with an explicit recursion-depth
fuel.  Each mechanism is evaluated with the budget stamped on it at
construction (the "current shared budget" of §4.4); the first match
decides and `Neutral` is the default.  The fuel only bounds the
`include`/`redirect` recursion depth, which the lookup budget keeps
below 10 in any run that reaches a recursive build. -/
def TestF (env : Resolver) : Nat → SPF → String → Result
  | 0, _, _ => .Neutral
  | fuel + 1, s, ip =>
    firstResult
      (fun m => evaluateStep env (fun spf => TestF env fuel spf ip) m ip m.Count)
      s.Mechanisms

/-- `Mechanism.Evaluate` of `mechanism.go` at a given fuel: the dispatch
with the recursive evaluation tied to `TestF`. -/
def EvaluateF (env : Resolver) (fuel : Nat) (m : Mechanism) (ip : String)
    (count : Nat) : Option Result :=
  evaluateStep env (fun spf => TestF env fuel spf ip) m ip count

/-- Recursion fuel used by the top-level entry point; the lookup budget
ceiling (10) bounds the recursion depth strictly below this. -/
def topFuel : Nat := 12

/-- Modelled from the spec: the top-level `SPFTest(client, email)`.  The
domain is the field after the first `@` of the email (the format error
when there is none); the record is fetched and built with budget 0 and a
build failure maps to `TempError` (transport failure), `None` (no record
found, no error) or `PermError` (malformed record); a successful build
is evaluated.  The Go `(Result, error)` pair is modelled with an
`Option SPFError` for the error component. -/
def SPFTest (env : Resolver) (client email : String) : Result × Option SPFError :=
  if charIdx email.data '@' ≠ none then
    let domain := String.mk ((splitOnP (fun c => c = '@') email.data).getD 1 [])
    match NewSPF env domain "" 0 with
    | .error .FailedLookup => (.TempError, some .FailedLookup)
    | .error .NoRecord => (.None, none)
    | .error e => (.PermError, some e)
    | .ok spf => (TestF env topFuel spf client, none)
  else (.None, some .Format)

/-! ### Token classifiers used to state record-level properties -/

/-- A token that parses to a valid directive which is not a direct
self-include of `domain` (the per-token conditions the builder checks). -/
def validTok (domain f : String) : Bool :=
  match NewMechanism f domain with
  | some (.ok m) => m.Valid && !(m.Name == "include" && m.Domain == domain)
  | _ => false

/-- A token that parses to a valid directive. -/
def validMechTok (domain f : String) : Bool :=
  match NewMechanism f domain with
  | some (.ok m) => m.Valid
  | _ => false

/-- A token that parses to a valid `include` of the owning domain itself. -/
def selfIncludeTok (domain f : String) : Bool :=
  match NewMechanism f domain with
  | some (.ok m) => m.Valid && m.Name == "include" && m.Domain == domain
  | _ => false

/-- A token that parses to a directive of a lookup-incurring kind
(mirrors the builder's budget increments). -/
def tokIsLookup (domain f : String) : Bool :=
  match NewMechanism f domain with
  | some (.ok m) => lookupKinds.contains m.Name
  | _ => false

/-- Number of lookup-incurring directives among a record's tokens
(version tokens excluded). -/
def lookupCountTokens (domain : String) (tokens : List String) : Nat :=
  (tokens.filter (fun f => !strHasPrefix f "v=" && tokIsLookup domain f)).length

/-! ### Utility lemmas -/

theorem strData_eq {a b : String} (h : a.data = b.data) : a = b := by
  cases a; cases b; exact congrArg String.mk h

theorem data_append (a b : String) : (a ++ b).data = a.data ++ b.data := rfl

theorem mk_data (s : String) : String.mk s.data = s := by
  cases s; rfl

theorem mk_eq_empty {l : List Char} : String.mk l = "" ↔ l = [] := by
  constructor
  · intro h
    simpa using congrArg String.data h
  · intro h
    rw [h]

theorem ne_empty_data {s : String} (h : s ≠ "") : s.data ≠ [] := by
  intro hl
  exact h (by rw [← mk_data s, hl])

theorem charIdx_eq_none {l : List Char} {t : Char} (h : ∀ c ∈ l, c ≠ t) :
    charIdx l t = none := by
  induction l with
  | nil => rfl
  | cons c rest ih =>
    have step : charIdx (c :: rest) t =
        (if c = t then some 0 else (charIdx rest t).map (· + 1)) := rfl
    rw [step, if_neg (h c (by simp)), ih (fun x hx => h x (by simp [hx]))]
    rfl

theorem charIdx_append_first {l1 l2 : List Char} {t : Char}
    (h : ∀ c ∈ l1, c ≠ t) : charIdx (l1 ++ t :: l2) t = some l1.length := by
  induction l1 with
  | nil => simp [charIdx]
  | cons c rest ih =>
    have step : charIdx ((c :: rest) ++ t :: l2) t =
        (if c = t then some 0 else (charIdx (rest ++ t :: l2) t).map (· + 1)) := rfl
    rw [step, if_neg (h c (by simp)), ih (fun x hx => h x (by simp [hx]))]
    rfl

theorem splitOnP_of_none {p : Char → Bool} {l : List Char}
    (h : ∀ c ∈ l, p c = false) : splitOnP p l = [l] := by
  induction l with
  | nil => rfl
  | cons c rest ih =>
    have step : splitOnP p (c :: rest) =
        (if p c then [] :: splitOnP p rest
         else
           match splitOnP p rest with
           | [] => [[c]]
           | t :: ts => (c :: t) :: ts) := rfl
    rw [step, if_neg (by simp [h c (by simp)]), ih (fun x hx => h x (by simp [hx]))]

theorem splitOnP_append {p : Char → Bool} {l1 l2 : List Char} {t : Char}
    (h : ∀ c ∈ l1, p c = false) (ht : p t = true) :
    splitOnP p (l1 ++ t :: l2) = l1 :: splitOnP p l2 := by
  induction l1 with
  | nil => simp [splitOnP, ht]
  | cons c rest ih =>
    have step : splitOnP p ((c :: rest) ++ t :: l2) =
        (if p c then [] :: splitOnP p (rest ++ t :: l2)
         else
           match splitOnP p (rest ++ t :: l2) with
           | [] => [[c]]
           | u :: ts => (c :: u) :: ts) := rfl
    rw [step, if_neg (by simp [h c (by simp)]), ih (fun x hx => h x (by simp [hx]))]

theorem drop_len_append {l1 l2 : List Char} :
    (l1 ++ l2).drop l1.length = l2 := List.drop_left l1 l2

theorem take_len_append {l1 l2 : List Char} :
    (l1 ++ l2).take l1.length = l1 := List.take_left l1 l2

theorem firstResult_of_none {eval : Mechanism → Option Result}
    {l : List Mechanism} (h : ∀ m ∈ l, eval m = none) :
    firstResult eval l = .Neutral := by
  induction l with
  | nil => rfl
  | cons m rest ih =>
    simp only [firstResult]
    rw [h m (by simp)]
    exact ih (fun x hx => h x (by simp [hx]))

theorem firstResult_first {eval : Mechanism → Option Result}
    {l1 : List Mechanism} {m : Mechanism} {l2 : List Mechanism} {r : Result}
    (h1 : ∀ m2 ∈ l1, eval m2 = none) (h2 : eval m = some r) :
    firstResult eval (l1 ++ m :: l2) = r := by
  induction l1 with
  | nil =>
    simp only [List.nil_append, firstResult]
    rw [h2]
  | cons m2 rest ih =>
    simp only [List.cons_append, firstResult]
    rw [h1 m2 (by simp)]
    exact ih (fun x hx => h1 x (by simp [hx]))

/-! ### Concrete resolvers used by the witnesses -/

/-- Every lookup fails (a network transport failure). -/
def noResolver : Resolver :=
  ⟨fun _ => .error (), fun _ => .error (), fun _ => .error (), fun _ => .error ()⟩

/-- TXT lookups succeed with no records; other lookups fail. -/
def emptyTXTResolver : Resolver :=
  ⟨fun _ => .ok [], fun _ => .error (), fun _ => .error (), fun _ => .error ()⟩

/-- TXT lookups yield a bare `v=spf1` record; other lookups fail. -/
def bareSPFResolver : Resolver :=
  ⟨fun _ => .ok ["v=spf1"], fun _ => .error (), fun _ => .error (), fun _ => .error ()⟩

/-! ### Claims -/

/-- C1: the evaluation engine is total; it walks the record's mechanisms
in order, returns the disposition of the first mechanism whose
evaluation reports a match (a nil Go error), never consulting later
ones, and returns `Neutral` when no mechanism matches.  `TestF` is a
total Lean function, so evaluation never raises. -/
theorem spf_c1_evaluation_order (env : Resolver) (fuel : Nat) (s : SPF) (ip : String) :
    ((∀ m ∈ s.Mechanisms, EvaluateF env fuel m ip m.Count = none) →
      TestF env (fuel + 1) s ip = .Neutral) ∧
    (∀ l1 m l2 r, s.Mechanisms = l1 ++ m :: l2 →
      (∀ m2 ∈ l1, EvaluateF env fuel m2 ip m2.Count = none) →
      EvaluateF env fuel m ip m.Count = some r →
      TestF env (fuel + 1) s ip = r) := by
  have hT : TestF env (fuel + 1) s ip =
      firstResult (fun m => EvaluateF env fuel m ip m.Count) s.Mechanisms := rfl
  constructor
  · intro h
    rw [hT]
    exact firstResult_of_none h
  · intro l1 m l2 r hs h1 h2
    rw [hT, hs]
    exact firstResult_first h1 h2

/-- Witness for C1: a record `[exists:x, all(-)]` under a resolver where
every lookup fails — `exists` does not match, the `all` catch-all does,
and its `Fail` disposition is returned; a record of just `exists:x`
yields `Neutral`. -/
theorem spf_c1_witness :
    TestF noResolver 1 ⟨"", "d", "spf1", [⟨"exists", "x", "", .Pass, 0⟩,
      ⟨"all", "d", "", .Fail, 0⟩], 0⟩ "1.2.3.4" = .Fail ∧
    TestF noResolver 1 ⟨"", "d", "spf1", [⟨"exists", "x", "", .Pass, 0⟩], 0⟩
      "1.2.3.4" = .Neutral := by
  constructor
  · exact (spf_c1_evaluation_order noResolver 0 _ "1.2.3.4").2
      [⟨"exists", "x", "", .Pass, 0⟩] ⟨"all", "d", "", .Fail, 0⟩ [] .Fail
      (by decide) (by decide) (by decide)
  · exact (spf_c1_evaluation_order noResolver 0 _ "1.2.3.4").1 (by decide)

/-- C7: `networkCIDR` with an empty prefix infers the full-width mask
from the address family — it behaves exactly as if the prefix had been
`32` when the parsed address has a 4-byte form (`To4` succeeds) and
`128` when it does not. -/
theorem spf_c7_fullwidth_mask (addr : String) (ip : List Nat)
    (h : parseIP addr = some ip) :
    ((To4 ip).isSome = true →
      networkCIDR addr "" = ParseCIDR (addr ++ "/" ++ "32") ∧
      networkCIDR addr "" = networkCIDR addr "32") ∧
    ((To4 ip).isSome = false →
      networkCIDR addr "" = ParseCIDR (addr ++ "/" ++ "128") ∧
      networkCIDR addr "" = networkCIDR addr "128") := by
  constructor
  · intro h4
    constructor
    · simp [networkCIDR, h, h4]
    · simp [networkCIDR, h, h4]
  · intro h4
    constructor
    · simp [networkCIDR, h, h4]
    · simp [networkCIDR, h, h4]

/-- Witness for C7: an IPv4 literal gets `/32`, an IPv6 literal `/128`. -/
theorem spf_c7_witness :
    networkCIDR "192.168.0.1" "" = ParseCIDR ("192.168.0.1" ++ "/" ++ "32") ∧
    networkCIDR "2001:db8::1" "" = ParseCIDR ("2001:db8::1" ++ "/" ++ "128") := by
  constructor
  · exact ((spf_c7_fullwidth_mask "192.168.0.1"
      [0, 0, 0, 0, 0, 0, 0, 0, 0, 0, 255, 255, 192, 168, 0, 1]
      (by decide)).1 (by decide)).1
  · exact ((spf_c7_fullwidth_mask "2001:db8::1"
      [32, 1, 13, 184, 0, 0, 0, 0, 0, 0, 0, 0, 0, 0, 0, 1]
      (by decide)).2 (by decide)).1

/-- C10: `NewMechanism` is not total at its public interface: on the
empty token the Go code indexes `str[0]` and panics (modelled by
`none`), on every non-empty token it returns a mechanism or an
`ErrInvalidMechanism` without panicking, and the record builder never
passes it an empty token because `strings.Fields` yields only non-empty
fields. -/
theorem spf_c10_newmechanism_totality (dom : String) :
    NewMechanism "" dom = none ∧
    (∀ s : String, s ≠ "" → (NewMechanism s dom).isSome = true) ∧
    (∀ rec t, t ∈ fields rec → t ≠ "") := by
  refine ⟨rfl, ?_, ?_⟩
  · intro s hs
    cases hl : s.data with
    | nil => exact absurd hl (ne_empty_data hs)
    | cons c rest =>
      simp only [NewMechanism, hl]
      split
      · rfl
      · split
        · rfl
        · split
          · rfl
          · split <;> rfl
  · intro rec t ht
    simp only [fields, List.mem_map, List.mem_filter] at ht
    obtain ⟨l, ⟨_, hne⟩, rfl⟩ := ht
    rw [Ne, mk_eq_empty]
    simpa using hne

/-- Witness for C10: the non-empty token `a` parses; the tokenization of
a two-field record yields no empty token. -/
theorem spf_c10_witness :
    (NewMechanism "a" "dom").isSome = true ∧ "mx" ≠ "" := by
  constructor
  · exact (spf_c10_newmechanism_totality "dom").2.1 "a" (by decide)
  · exact (spf_c10_newmechanism_totality "dom").2.2 "v=spf1 mx" "mx" (by decide)

/-- C2: the `include` dispatch — a recursive build failing with
`ErrNoRecord` or `ErrMaxCount` makes the directive match with
`PermError`; any other build error does not match (evaluation continues
with the next sibling); on a successful build the directive matches
exactly when the recursive evaluation gives `Pass` or `PermError`, which
is then returned, and any other recursive disposition does not match. -/
theorem spf_c2_include_dispatch (env : Resolver) (test : SPF → Result)
    (m : Mechanism) (ip : String) (count : Nat) (hname : m.Name = "include") :
    (∀ e, NewSPF env m.Domain "" count = .error e →
      ((e = .NoRecord ∨ e = .MaxCount) →
        evaluateStep env test m ip count = some .PermError) ∧
      (e ≠ .NoRecord → e ≠ .MaxCount →
        evaluateStep env test m ip count = none)) ∧
    (∀ spf, NewSPF env m.Domain "" count = .ok spf →
      ((test spf = .Pass ∨ test spf = .PermError) →
        evaluateStep env test m ip count = some (test spf)) ∧
      (test spf ≠ .Pass → test spf ≠ .PermError →
        evaluateStep env test m ip count = none)) := by
  have hstep : evaluateStep env test m ip count =
      (match NewSPF env m.Domain "" count with
       | .error e => if e = .NoRecord ∨ e = .MaxCount then some .PermError else none
       | .ok spf =>
         let result := test spf
         if result = .Pass ∨ result = .PermError then some result else none) := by
    simp [evaluateStep, hname]
  constructor
  · intro e he
    rw [hstep, he]
    constructor
    · intro h
      simp [h]
    · intro h1 h2
      simp [h1, h2]
  · intro spf hspf
    rw [hstep, hspf]
    constructor
    · intro h
      simp [h]
    · intro h1 h2
      simp [h1, h2]

/-- Witness for C2: under a resolver whose TXT lookup fails the build
fails with `ErrFailedLookup` and the `include` does not match; with no
TXT records it fails with `ErrNoRecord` and matches with `PermError`;
with a bare `v=spf1` record it builds, and the directive matches with
the recursive result when that is `Pass` and does not match when it is
`Fail`. -/
theorem spf_c2_witness :
    evaluateStep noResolver (fun _ => .Pass) ⟨"include", "x", "", .Pass, 0⟩
      "1.2.3.4" 0 = none ∧
    evaluateStep emptyTXTResolver (fun _ => .Pass) ⟨"include", "x", "", .Pass, 0⟩
      "1.2.3.4" 0 = some .PermError ∧
    evaluateStep bareSPFResolver (fun _ => .Pass) ⟨"include", "x", "", .Pass, 0⟩
      "1.2.3.4" 0 = some .Pass ∧
    evaluateStep bareSPFResolver (fun _ => .Fail) ⟨"include", "x", "", .Pass, 0⟩
      "1.2.3.4" 0 = none := by
  refine ⟨?_, ?_, ?_, ?_⟩
  · exact ((spf_c2_include_dispatch noResolver (fun _ => .Pass) _ "1.2.3.4" 0
      rfl).1 .FailedLookup (by rfl)).2 (by decide) (by decide)
  · exact ((spf_c2_include_dispatch emptyTXTResolver (fun _ => .Pass) _ "1.2.3.4" 0
      rfl).1 .NoRecord (by rfl)).1 (Or.inl rfl)
  · exact ((spf_c2_include_dispatch bareSPFResolver (fun _ => .Pass) _ "1.2.3.4" 0
      rfl).2 ⟨"v=spf1", "x", "spf1", [], 0⟩ (by rfl)).1 (Or.inl rfl)
  · exact ((spf_c2_include_dispatch bareSPFResolver (fun _ => .Fail) _ "1.2.3.4" 0
      rfl).2 ⟨"v=spf1", "x", "spf1", [], 0⟩ (by rfl)).2 (by decide) (by decide)

/-- C3: the `redirect` dispatch — a recursive build failing with
`ErrFailedLookup` matches with `TempError`; any other build error
matches with `PermError`; a successful build always matches and returns
exactly the recursive evaluation's disposition. -/
theorem spf_c3_redirect_dispatch (env : Resolver) (test : SPF → Result)
    (m : Mechanism) (ip : String) (count : Nat) (hname : m.Name = "redirect") :
    (NewSPF env m.Domain "" count = .error .FailedLookup →
      evaluateStep env test m ip count = some .TempError) ∧
    (∀ e, NewSPF env m.Domain "" count = .error e → e ≠ .FailedLookup →
      evaluateStep env test m ip count = some .PermError) ∧
    (∀ spf, NewSPF env m.Domain "" count = .ok spf →
      evaluateStep env test m ip count = some (test spf)) := by
  have hstep : evaluateStep env test m ip count =
      (match NewSPF env m.Domain "" count with
       | .error .FailedLookup => some .TempError
       | .error _ => some .PermError
       | .ok spf => some (test spf)) := by
    simp [evaluateStep, hname]
  refine ⟨?_, ?_, ?_⟩
  · intro he
    rw [hstep, he]
  · intro e he hne
    rw [hstep, he]
    cases e <;> first | rfl | exact absurd rfl hne
  · intro spf hspf
    rw [hstep, hspf]

/-- Witness for C3: a transport failure gives `TempError`, a missing
record gives `PermError`, and a successful build returns the recursive
result (`SoftFail` here) unconditionally. -/
theorem spf_c3_witness :
    evaluateStep noResolver (fun _ => .SoftFail) ⟨"redirect", "x", "", .Pass, 0⟩
      "1.2.3.4" 0 = some .TempError ∧
    evaluateStep emptyTXTResolver (fun _ => .SoftFail) ⟨"redirect", "x", "", .Pass, 0⟩
      "1.2.3.4" 0 = some .PermError ∧
    evaluateStep bareSPFResolver (fun _ => .SoftFail) ⟨"redirect", "x", "", .Pass, 0⟩
      "1.2.3.4" 0 = some .SoftFail := by
  refine ⟨?_, ?_, ?_⟩
  · exact (spf_c3_redirect_dispatch noResolver (fun _ => .SoftFail) _ "1.2.3.4" 0
      rfl).1 (by rfl)
  · exact (spf_c3_redirect_dispatch emptyTXTResolver (fun _ => .SoftFail) _ "1.2.3.4" 0
      rfl).2.1 .NoRecord (by rfl) (by decide)
  · exact (spf_c3_redirect_dispatch bareSPFResolver (fun _ => .SoftFail) _ "1.2.3.4" 0
      rfl).2.2 ⟨"v=spf1", "x", "spf1", [], 0⟩ (by rfl)

theorem charIdx_none_forall {l : List Char} {t : Char}
    (h : charIdx l t = none) : ∀ c ∈ l, c ≠ t := by
  induction l with
  | nil => simp
  | cons c rest ih =>
    have step : charIdx (c :: rest) t =
        (if c = t then some 0 else (charIdx rest t).map (· + 1)) := rfl
    rw [step] at h
    by_cases hc : c = t
    · rw [if_pos hc] at h
      cases h
    · rw [if_neg hc] at h
      have hrest : charIdx rest t = none := by
        cases hr : charIdx rest t with
        | none => rfl
        | some v => rw [hr] at h; cases h
      intro x hx
      rcases List.mem_cons.mp hx with rfl | hx2
      · exact hc
      · exact ih hrest x hx2

/-- C5: the top-level entry point — an email without `@` fails with the
format error; otherwise the domain is the field after the first `@`, its
record is built with a fresh budget of 0, and a build failure maps to
`TempError` (transport failure of the TXT lookup), `None` without an
error (no `v=spf1` record found) or `PermError` (malformed record); a
successful build returns the record's evaluation result. -/
theorem spf_c5_spftest_mapping (env : Resolver) (client lcl rest : String)
    (h1 : charIdx lcl.data '@' = none) (h2 : charIdx rest.data '@' = none) :
    (∀ email : String, charIdx email.data '@' = none →
      SPFTest env client email = (.None, some .Format)) ∧
    (NewSPF env rest "" 0 = .error .FailedLookup →
      SPFTest env client (lcl ++ "@" ++ rest) = (.TempError, some .FailedLookup)) ∧
    (NewSPF env rest "" 0 = .error .NoRecord →
      SPFTest env client (lcl ++ "@" ++ rest) = (.None, none)) ∧
    (∀ e, NewSPF env rest "" 0 = .error e → e ≠ .FailedLookup → e ≠ .NoRecord →
      SPFTest env client (lcl ++ "@" ++ rest) = (.PermError, some e)) ∧
    (∀ spf, NewSPF env rest "" 0 = .ok spf →
      SPFTest env client (lcl ++ "@" ++ rest) = (TestF env topFuel spf client, none)) := by
  have hdata : (lcl ++ "@" ++ rest).data = lcl.data ++ '@' :: rest.data := by
    have hat : ("@" : String).data = ['@'] := rfl
    simp [data_append, hat]
  have hcont : charIdx (lcl ++ "@" ++ rest).data '@' ≠ none := by
    rw [hdata, charIdx_append_first (charIdx_none_forall h1)]
    simp
  have hnl : ∀ c ∈ lcl.data, (c = '@' : Bool) = false := by
    intro c hc
    simpa using charIdx_none_forall h1 c hc
  have hnr : ∀ c ∈ rest.data, (c = '@' : Bool) = false := by
    intro c hc
    simpa using charIdx_none_forall h2 c hc
  have hsplit : splitOnP (fun c => c = '@') (lcl ++ "@" ++ rest).data =
      [lcl.data, rest.data] := by
    rw [hdata, splitOnP_append hnl (by simp), splitOnP_of_none hnr]
  have hmain : SPFTest env client (lcl ++ "@" ++ rest) =
      (match NewSPF env rest "" 0 with
       | .error .FailedLookup => (.TempError, some .FailedLookup)
       | .error .NoRecord => (.None, none)
       | .error e => (.PermError, some e)
       | .ok spf => (TestF env topFuel spf client, none)) := by
    simp only [SPFTest, if_pos hcont, hsplit]
    rw [show ([lcl.data, rest.data].getD 1 []) = rest.data from rfl, mk_data]
  refine ⟨?_, ?_, ?_, ?_, ?_⟩
  · intro email he
    simp [SPFTest, he]
  · intro h
    rw [hmain, h]
  · intro h
    rw [hmain, h]
  · intro e he hne1 hne2
    rw [hmain, he]
    cases e <;> first | rfl | exact absurd rfl hne1 | exact absurd rfl hne2
  · intro spf h
    rw [hmain, h]

/-- Witness for C5: a mail address without `@` gives the format error;
`info@x.com` under a failing resolver gives `TempError`, under an
empty-TXT resolver gives `None`, and under a bare `v=spf1` record the
evaluation result (`Neutral`, no mechanisms) is returned. -/
theorem spf_c5_witness :
    SPFTest noResolver "1.2.3.4" "nodomain" = (.None, some .Format) ∧
    SPFTest noResolver "1.2.3.4" ("info" ++ "@" ++ "x.com") =
      (.TempError, some .FailedLookup) ∧
    SPFTest emptyTXTResolver "1.2.3.4" ("info" ++ "@" ++ "x.com") = (.None, none) ∧
    SPFTest bareSPFResolver "1.2.3.4" ("info" ++ "@" ++ "x.com") =
      (TestF bareSPFResolver topFuel ⟨"v=spf1", "x.com", "spf1", [], 0⟩ "1.2.3.4",
        none) := by
  refine ⟨?_, ?_, ?_, ?_⟩
  · exact (spf_c5_spftest_mapping noResolver "1.2.3.4" "info" "x.com"
      (by decide) (by decide)).1 "nodomain" (by decide)
  · exact (spf_c5_spftest_mapping noResolver "1.2.3.4" "info" "x.com"
      (by decide) (by decide)).2.1 (by rfl)
  · exact (spf_c5_spftest_mapping emptyTXTResolver "1.2.3.4" "info" "x.com"
      (by decide) (by decide)).2.2.1 (by rfl)
  · exact (spf_c5_spftest_mapping bareSPFResolver "1.2.3.4" "info" "x.com"
      (by decide) (by decide)).2.2.2.2 ⟨"v=spf1", "x.com", "spf1", [], 0⟩ (by rfl)

theorem validTok_destruct {domain f : String} (h : validTok domain f = true) :
    ∃ m, NewMechanism f domain = some (.ok m) ∧ m.Valid = true ∧
      ¬(m.Name = "include" ∧ m.Domain = domain) := by
  cases hm : NewMechanism f domain with
  | none => rw [validTok, hm] at h; cases h
  | some res =>
    cases res with
    | error e => rw [validTok, hm] at h; cases h
    | ok m =>
      rw [validTok, hm] at h
      refine ⟨m, rfl, ?_, ?_⟩
      · exact (Bool.and_eq_true_iff.mp h).1
      · have h2 := (Bool.and_eq_true_iff.mp h).2
        simp only [Bool.not_eq_true', Bool.and_eq_false_iff, beq_eq_false_iff_ne] at h2
        rcases h2 with h2 | h2
        · exact fun hc => h2 hc.1
        · exact fun hc => h2 hc.2

theorem buildSPF_budget (domain raw : String) (tokens : List String) :
    ∀ (ver : String) (ms : List Mechanism) (cnt : Nat),
    (∀ f ∈ tokens, strHasPrefix f "v=" = true ∨ validTok domain f = true) →
    ∃ ver2 ms2, buildSPF domain raw tokens ver ms cnt =
      if 10 ≤ cnt + lookupCountTokens domain tokens then Except.error .MaxCount
      else Except.ok ⟨raw, domain, ver2, ms2, cnt + lookupCountTokens domain tokens⟩ := by
  induction tokens with
  | nil =>
    intro ver ms cnt _
    exact ⟨ver, ms, by simp [buildSPF, lookupCountTokens]⟩
  | cons f rest ih =>
    intro ver ms cnt hwf
    by_cases hp : strHasPrefix f "v=" = true
    · have hL : lookupCountTokens domain (f :: rest) = lookupCountTokens domain rest := by
        simp [lookupCountTokens, List.filter_cons, hp]
      obtain ⟨v2, m2, h⟩ := ih (strDrop f 2) ms cnt (fun x hx => hwf x (by simp [hx]))
      refine ⟨v2, m2, ?_⟩
      rw [show buildSPF domain raw (f :: rest) ver ms cnt =
        buildSPF domain raw rest (strDrop f 2) ms cnt from by simp [buildSPF, hp], h, hL]
    · rw [Bool.not_eq_true] at hp
      have hv : validTok domain f = true := by
        rcases hwf f (by simp) with h | h
        · rw [hp] at h; cases h
        · exact h
      obtain ⟨m, hm, hval, hnl⟩ := validTok_destruct hv
      have htok : tokIsLookup domain f = lookupKinds.contains m.Name := by
        rw [tokIsLookup, hm]
      have hstep : buildSPF domain raw (f :: rest) ver ms cnt =
          buildSPF domain raw rest ver
            (ms ++ [{ m with Count := if lookupKinds.contains m.Name then cnt + 1 else cnt }])
            (if lookupKinds.contains m.Name then cnt + 1 else cnt) := by
        simp [buildSPF, hp, hm, hval, hnl]
      by_cases hlk : lookupKinds.contains m.Name = true
      · have hmem : m.Name ∈ lookupKinds := by simpa using hlk
        have hL : lookupCountTokens domain (f :: rest) =
            lookupCountTokens domain rest + 1 := by
          simp [lookupCountTokens, List.filter_cons, hp, htok, hmem]
        obtain ⟨v2, m2, h⟩ := ih ver
          (ms ++ [{ m with Count := cnt + 1 }]) (cnt + 1)
          (fun x hx => hwf x (by simp [hx]))
        refine ⟨v2, m2, ?_⟩
        rw [hstep, if_pos hlk, h, hL]
        have harith : cnt + 1 + lookupCountTokens domain rest =
            cnt + (lookupCountTokens domain rest + 1) := by omega
        rw [harith]
      · rw [Bool.not_eq_true] at hlk
        have hmem : m.Name ∉ lookupKinds := by simpa using hlk
        have hL : lookupCountTokens domain (f :: rest) =
            lookupCountTokens domain rest := by
          simp [lookupCountTokens, List.filter_cons, hp, htok, hmem]
        obtain ⟨v2, m2, h⟩ := ih ver (ms ++ [{ m with Count := cnt }]) cnt
          (fun x hx => hwf x (by simp [hx]))
        refine ⟨v2, m2, ?_⟩
        rw [hstep, if_neg (by simpa using hlk), h, hL]

/-- C4: the budget ceiling — for a well-formed record (version marker
present, every token a valid directive, no direct self-include),
construction fails with `ErrMaxCount` as soon as the inherited budget
(0 for a fresh top-level build, the running count of the chain for a
recursive one) plus the record's lookup-incurring directives (kinds
`a`, `mx`, `ptr`, `exists`, `include`, `redirect`) reaches 10, and
succeeds below that, storing the accumulated count; in particular with
a fresh budget, 10 lookup directives fail and exactly 9 succeed. -/
theorem spf_c4_budget_ceiling (env : Resolver) (domain record : String)
    (count : Nat) (hv : strHasPrefix record "v=spf1" = true)
    (hwf : ∀ f ∈ fields record, strHasPrefix f "v=" = true ∨ validTok domain f = true) :
    (10 ≤ count + lookupCountTokens domain (fields record) →
      NewSPF env domain record count = .error .MaxCount) ∧
    (count + lookupCountTokens domain (fields record) ≤ 9 →
      ∃ s, NewSPF env domain record count = .ok s ∧
        s.Count = count + lookupCountTokens domain (fields record)) := by
  have hne : record ≠ "" := by
    intro h
    rw [h] at hv
    exact absurd hv (by decide)
  have hstep : NewSPF env domain record count =
      buildSPF domain record (fields record) "" [] count := by
    simp [NewSPF, hne, hv]
  obtain ⟨v2, m2, h⟩ := buildSPF_budget domain record (fields record) "" [] count hwf
  constructor
  · intro h10
    rw [hstep, h, if_pos (by omega)]
  · intro h9
    rw [hstep, h, if_neg (by omega)]
    exact ⟨_, rfl, rfl⟩

/-- Witness for C4: ten `mx` directives fail construction with the
max-lookups error, nine succeed with a stored budget of 9. -/
theorem spf_c4_witness :
    NewSPF noResolver "d" "v=spf1 mx mx mx mx mx mx mx mx mx mx" 0 =
      .error .MaxCount ∧
    ∃ s, NewSPF noResolver "d" "v=spf1 mx mx mx mx mx mx mx mx mx" 0 = .ok s ∧
      s.Count = 0 + lookupCountTokens "d"
        (fields "v=spf1 mx mx mx mx mx mx mx mx mx") := by
  constructor
  · exact (spf_c4_budget_ceiling noResolver "d" "v=spf1 mx mx mx mx mx mx mx mx mx mx"
      0 (by decide) (by decide)).1 (by decide)
  · exact (spf_c4_budget_ceiling noResolver "d" "v=spf1 mx mx mx mx mx mx mx mx mx"
      0 (by decide) (by decide)).2 (by decide)

theorem validMechTok_destruct {domain f : String} (h : validMechTok domain f = true) :
    ∃ m, NewMechanism f domain = some (.ok m) ∧ m.Valid = true := by
  cases hm : NewMechanism f domain with
  | none => rw [validMechTok, hm] at h; cases h
  | some res =>
    cases res with
    | error e => rw [validMechTok, hm] at h; cases h
    | ok m => exact ⟨m, rfl, by rw [validMechTok, hm] at h; exact h⟩

theorem version_prefix_data {f : String} (hp : strHasPrefix f "v=" = true) :
    ∃ t, f.data = 'v' :: '=' :: t := by
  cases hl : f.data with
  | nil => rw [strHasPrefix, hl] at hp; cases hp
  | cons c t1 =>
    cases t1 with
    | nil =>
      rw [strHasPrefix, hl] at hp
      simp [List.isPrefixOf] at hp
    | cons c2 t =>
      rw [strHasPrefix, hl] at hp
      have hpre : ("v=" : String).data = ['v', '='] := rfl
      rw [hpre] at hp
      simp only [List.isPrefixOf, Bool.and_eq_true, beq_iff_eq] at hp
      exact ⟨t, by rw [← hp.1, ← hp.2.1]⟩

theorem selfIncludeTok_of_version {domain f : String}
    (hp : strHasPrefix f "v=" = true) : selfIncludeTok domain f = false := by
  obtain ⟨t, hft⟩ := version_prefix_data hp
  have hidx : charIdx f.data '=' = some 1 := by
    rw [hft]
    rfl
  have hnm : NewMechanism f domain = some (parseMechanism .Pass f domain) := by
    rw [NewMechanism, hft]
    rfl
  have hpm : parseMechanism .Pass f domain =
      (if String.mk (f.data.drop 2) = "" then .error .InvalidMechanism
       else .ok ⟨String.mk (f.data.take 1), String.mk (f.data.drop 2), "", .Pass, 0⟩) := by
    rw [parseMechanism, hidx]
  by_cases hd : String.mk (f.data.drop 2) = ""
  · rw [selfIncludeTok, hnm, hpm, if_pos hd]
  · rw [selfIncludeTok, hnm, hpm, if_neg hd]
    have hname : String.mk (f.data.take 1) = "v" := by
      rw [hft]
      rfl
    simp [hname]

theorem buildSPF_loop (domain raw : String) (tokens : List String) :
    ∀ (ver : String) (ms : List Mechanism) (cnt : Nat),
    (∀ f ∈ tokens, strHasPrefix f "v=" = true ∨ validMechTok domain f = true) →
    (∃ f ∈ tokens, selfIncludeTok domain f = true) →
    buildSPF domain raw tokens ver ms cnt = .error .IncludeLoop := by
  induction tokens with
  | nil =>
    intro ver ms cnt _ h
    simp at h
  | cons f rest ih =>
    intro ver ms cnt hwf hex
    by_cases hp : strHasPrefix f "v=" = true
    · have hstep : buildSPF domain raw (f :: rest) ver ms cnt =
          buildSPF domain raw rest (strDrop f 2) ms cnt := by
        simp [buildSPF, hp]
      rw [hstep]
      apply ih (strDrop f 2) ms cnt (fun x hx => hwf x (by simp [hx]))
      rcases hex with ⟨g, hg, hsi⟩
      rcases List.mem_cons.mp hg with rfl | hg2
      · rw [selfIncludeTok_of_version hp] at hsi
        cases hsi
      · exact ⟨g, hg2, hsi⟩
    · rw [Bool.not_eq_true] at hp
      have hv : validMechTok domain f = true := by
        rcases hwf f (by simp) with h | h
        · rw [hp] at h; cases h
        · exact h
      obtain ⟨m, hm, hval⟩ := validMechTok_destruct hv
      by_cases hloop : m.Name = "include" ∧ m.Domain = domain
      · simp [buildSPF, hp, hm, hval, hloop]
      · have hstep : buildSPF domain raw (f :: rest) ver ms cnt =
            buildSPF domain raw rest ver
              (ms ++ [{ m with Count := if lookupKinds.contains m.Name then cnt + 1 else cnt }])
              (if lookupKinds.contains m.Name then cnt + 1 else cnt) := by
          simp [buildSPF, hp, hm, hval, hloop]
        rw [hstep]
        apply ih _ _ _ (fun x hx => hwf x (by simp [hx]))
        rcases hex with ⟨g, hg, hsi⟩
        rcases List.mem_cons.mp hg with rfl | hg2
        · rw [selfIncludeTok, hm] at hsi
          simp only [Bool.and_eq_true, beq_iff_eq] at hsi
          exact absurd ⟨hsi.1.2, hsi.2⟩ hloop
        · exact ⟨g, hg2, hsi⟩

/-- C8: the direct self-include guard — a record for domain `D` whose
tokens are all valid directives (or the version token) and which
contains an `include` directive targeting `D` itself fails construction
with the include-loop error, whatever the directive's position and
whatever the inherited budget. -/
theorem spf_c8_self_include_rejection (env : Resolver) (domain record : String)
    (count : Nat) (hv : strHasPrefix record "v=spf1" = true)
    (hwf : ∀ f ∈ fields record,
      strHasPrefix f "v=" = true ∨ validMechTok domain f = true)
    (hinc : ∃ f ∈ fields record, selfIncludeTok domain f = true) :
    NewSPF env domain record count = .error .IncludeLoop := by
  have hne : record ≠ "" := by
    intro h
    rw [h] at hv
    exact absurd hv (by decide)
  have hstep : NewSPF env domain record count =
      buildSPF domain record (fields record) "" [] count := by
    simp [NewSPF, hne, hv]
  rw [hstep]
  exact buildSPF_loop domain record (fields record) "" [] count hwf hinc

/-- Witness for C8: `include:google.com` in a `google.com` record is
rejected with the loop error both as the first directive and in the
middle of other directives, and independently of the inherited budget. -/
theorem spf_c8_witness :
    NewSPF noResolver "google.com" "v=spf1 include:google.com" 0 =
      .error .IncludeLoop ∧
    NewSPF noResolver "google.com" "v=spf1 mx include:google.com mx" 5 =
      .error .IncludeLoop := by
  constructor
  · exact spf_c8_self_include_rejection noResolver "google.com"
      "v=spf1 include:google.com" 0 (by decide) (by decide) (by decide)
  · exact spf_c8_self_include_rejection noResolver "google.com"
      "v=spf1 mx include:google.com mx" 5 (by decide) (by decide) (by decide)

/-! ### Shape lemmas for the directive parser -/

theorem head_append_ne_nil {l1 l2 : List Char} (h : l1 ≠ []) :
    (l1 ++ l2).head? = l1.head? := by
  cases l1 with
  | nil => exact absurd rfl h
  | cons c t => rfl

theorem drop_after_append {l1 l2 : List Char} {t : Char} :
    (l1 ++ t :: l2).drop (l1.length + 1) = l2 := by
  rw [show l1 ++ t :: l2 = (l1 ++ [t]) ++ l2 by simp,
    show l1.length + 1 = (l1 ++ [t]).length by simp]
  exact drop_len_append

theorem drop_after_append_nil {l1 : List Char} {t : Char} :
    (l1 ++ [t]).drop (l1.length + 1) = [] := by
  rw [show l1.length + 1 = (l1 ++ [t]).length by simp]
  exact List.drop_length _

theorem take_of_append {l1 l2 : List Char} {t : Char} :
    (l1 ++ t :: l2).take l1.length = l1 := by
  rw [show l1 ++ t :: l2 = l1 ++ (t :: l2) from rfl]
  exact take_len_append

/-- `name:domain` parses into name and domain. -/
theorem parseMechanism_colon (r : Result) (n d dom : String)
    (hn : ∀ c ∈ n.data, c ≠ ':' ∧ c ≠ '/' ∧ c ≠ '=')
    (hd : ∀ c ∈ d.data, c ≠ ':' ∧ c ≠ '/' ∧ c ≠ '=')
    (hd0 : d ≠ "") :
    parseMechanism r (n ++ ":" ++ d) dom = .ok ⟨n, d, "", r, 0⟩ := by
  have hdata : (n ++ ":" ++ d).data = n.data ++ ':' :: d.data := by
    simp [data_append, show (":" : String).data = [':'] from rfl]
  have he : charIdx (n.data ++ ':' :: d.data) '=' = none := by
    apply charIdx_eq_none
    intro c hc
    rcases List.mem_append.mp hc with h | h
    · exact (hn c h).2.2
    · rcases List.mem_cons.mp h with rfl | h
      · decide
      · exact (hd c h).2.2
  have hc : charIdx (n.data ++ ':' :: d.data) ':' = some n.data.length :=
    charIdx_append_first (fun c h => (hn c h).1)
  have hs : charIdx (n.data ++ ':' :: d.data) '/' = none := by
    apply charIdx_eq_none
    intro c hc
    rcases List.mem_append.mp hc with h | h
    · exact (hn c h).2.1
    · rcases List.mem_cons.mp h with rfl | h
      · decide
      · exact (hd c h).2.1
  simp only [parseMechanism, hdata, he, hc, hs, drop_after_append, take_of_append,
    mk_data]
  rw [if_neg hd0]

/-- `name:domain/prefix` parses into name, domain and prefix. -/
theorem parseMechanism_colon_slash (r : Result) (n d p dom : String)
    (hn : ∀ c ∈ n.data, c ≠ ':' ∧ c ≠ '/' ∧ c ≠ '=')
    (hd : ∀ c ∈ d.data, c ≠ ':' ∧ c ≠ '/' ∧ c ≠ '=')
    (hp : ∀ c ∈ p.data, c ≠ ':' ∧ c ≠ '/' ∧ c ≠ '=')
    (hd0 : d ≠ "") (hp0 : p ≠ "") :
    parseMechanism r (n ++ ":" ++ d ++ "/" ++ p) dom = .ok ⟨n, d, p, r, 0⟩ := by
  have hassoc : n.data ++ ':' :: (d.data ++ '/' :: p.data) =
      (n.data ++ ':' :: d.data) ++ '/' :: p.data := by
    simp
  have hdata1 : (n ++ ":" ++ d ++ "/" ++ p).data =
      n.data ++ ':' :: (d.data ++ '/' :: p.data) := by
    simp [data_append, show (":" : String).data = [':'] from rfl,
      show ("/" : String).data = ['/'] from rfl]
  have he : charIdx (n.data ++ ':' :: (d.data ++ '/' :: p.data)) '=' = none := by
    apply charIdx_eq_none
    intro c hc
    rcases List.mem_append.mp hc with h | h
    · exact (hn c h).2.2
    · rcases List.mem_cons.mp h with rfl | h
      · decide
      · rcases List.mem_append.mp h with h | h
        · exact (hd c h).2.2
        · rcases List.mem_cons.mp h with rfl | h
          · decide
          · exact (hp c h).2.2
  have hc : charIdx (n.data ++ ':' :: (d.data ++ '/' :: p.data)) ':' =
      some n.data.length :=
    charIdx_append_first (fun c h => (hn c h).1)
  have hs : charIdx (n.data ++ ':' :: (d.data ++ '/' :: p.data)) '/' =
      some (n.data ++ ':' :: d.data).length := by
    rw [hassoc]
    apply charIdx_append_first
    intro c h
    rcases List.mem_append.mp h with h | h
    · exact (hn c h).2.1
    · rcases List.mem_cons.mp h with rfl | h
      · decide
      · exact (hd c h).2.1
  have hlt : n.data.length < (n.data ++ ':' :: d.data).length := by
    simp
  have htake2 : (n.data ++ ':' :: (d.data ++ '/' :: p.data)).take
      (n.data ++ ':' :: d.data).length = n.data ++ ':' :: d.data := by
    rw [hassoc]
    exact take_len_append
  have hdrop2 : (n.data ++ ':' :: (d.data ++ '/' :: p.data)).drop
      ((n.data ++ ':' :: d.data).length + 1) = p.data := by
    rw [hassoc]
    exact drop_after_append
  have htake1 : (n.data ++ ':' :: (d.data ++ '/' :: p.data)).take n.data.length =
      n.data := take_of_append
  simp only [parseMechanism, hdata1, he, hc, hs]
  rw [if_pos hlt, htake2, hdrop2, drop_after_append, htake1, mk_data, mk_data, mk_data]
  rw [if_neg (by simp [hd0, hp0])]

/-- A bare `name` parses with the inherited default domain. -/
theorem parseMechanism_bare (r : Result) (n dom : String)
    (hn : ∀ c ∈ n.data, c ≠ ':' ∧ c ≠ '/' ∧ c ≠ '=') :
    parseMechanism r n dom = .ok ⟨n, dom, "", r, 0⟩ := by
  have he : charIdx n.data '=' = none := charIdx_eq_none (fun c h => (hn c h).2.2)
  have hc : charIdx n.data ':' = none := charIdx_eq_none (fun c h => (hn c h).1)
  have hs : charIdx n.data '/' = none := charIdx_eq_none (fun c h => (hn c h).2.1)
  simp only [parseMechanism, he, hc, hs]

/-- `name/prefix` parses with the inherited default domain. -/
theorem parseMechanism_slash (r : Result) (n p dom : String)
    (hn : ∀ c ∈ n.data, c ≠ ':' ∧ c ≠ '/' ∧ c ≠ '=')
    (hp : ∀ c ∈ p.data, c ≠ ':' ∧ c ≠ '/' ∧ c ≠ '=')
    (hp0 : p ≠ "") :
    parseMechanism r (n ++ "/" ++ p) dom = .ok ⟨n, dom, p, r, 0⟩ := by
  have hdata : (n ++ "/" ++ p).data = n.data ++ '/' :: p.data := by
    simp [data_append, show ("/" : String).data = ['/'] from rfl]
  have he : charIdx (n.data ++ '/' :: p.data) '=' = none := by
    apply charIdx_eq_none
    intro c hc
    rcases List.mem_append.mp hc with h | h
    · exact (hn c h).2.2
    · rcases List.mem_cons.mp h with rfl | h
      · decide
      · exact (hp c h).2.2
  have hc : charIdx (n.data ++ '/' :: p.data) ':' = none := by
    apply charIdx_eq_none
    intro c hc
    rcases List.mem_append.mp hc with h | h
    · exact (hn c h).1
    · rcases List.mem_cons.mp h with rfl | h
      · decide
      · exact (hp c h).1
  have hs : charIdx (n.data ++ '/' :: p.data) '/' = some n.data.length :=
    charIdx_append_first (fun c h => (hn c h).2.1)
  simp only [parseMechanism, hdata, he, hc, hs, drop_after_append, take_of_append,
    mk_data]
  rw [if_neg hp0]

/-- `name=value` parses into name and domain (the `=` branch is tried
first; only the name must be free of `=`). -/
theorem parseMechanism_eq (r : Result) (n d dom : String)
    (hn : ∀ c ∈ n.data, c ≠ '=') (hd0 : d ≠ "") :
    parseMechanism r (n ++ "=" ++ d) dom = .ok ⟨n, d, "", r, 0⟩ := by
  have hdata : (n ++ "=" ++ d).data = n.data ++ '=' :: d.data := by
    simp [data_append, show ("=" : String).data = ['='] from rfl]
  have he : charIdx (n.data ++ '=' :: d.data) '=' = some n.data.length :=
    charIdx_append_first hn
  simp only [parseMechanism, hdata, he, drop_after_append, take_of_append, mk_data]
  rw [if_neg hd0]

/-- C6: empty split segments are parse errors — a token ending in `:`
(empty domain), in `=` (empty value), in `/` (empty prefix), or of the
form `name:domain/` with an empty prefix after a non-empty domain, is
rejected by `parseMechanism` with `ErrInvalidMechanism` rather than
producing a directive with an empty field.  Instantiated at `ip4:`,
`include:`, `redirect=` and `ip4:127.0.0.1/` by the witness. -/
theorem spf_c6_empty_segments (r : Result) (n d dom : String)
    (hn : ∀ c ∈ n.data, c ≠ ':' ∧ c ≠ '/' ∧ c ≠ '=')
    (hd : ∀ c ∈ d.data, c ≠ ':' ∧ c ≠ '/' ∧ c ≠ '=') :
    parseMechanism r (n ++ ":") dom = .error .InvalidMechanism ∧
    parseMechanism r (n ++ "=") dom = .error .InvalidMechanism ∧
    parseMechanism r (n ++ "/") dom = .error .InvalidMechanism ∧
    parseMechanism r (n ++ ":" ++ d ++ "/") dom = .error .InvalidMechanism := by
  refine ⟨?_, ?_, ?_, ?_⟩
  · have hdata : (n ++ ":").data = n.data ++ [':'] := by
      simp [data_append, show (":" : String).data = [':'] from rfl]
    have he : charIdx (n.data ++ [':']) '=' = none := by
      apply charIdx_eq_none
      intro c hc
      rcases List.mem_append.mp hc with h | h
      · exact (hn c h).2.2
      · rcases List.mem_singleton.mp h with rfl
        decide
    have hc : charIdx (n.data ++ [':']) ':' = some n.data.length :=
      charIdx_append_first (fun c h => (hn c h).1)
    have hs : charIdx (n.data ++ [':']) '/' = none := by
      apply charIdx_eq_none
      intro c hc
      rcases List.mem_append.mp hc with h | h
      · exact (hn c h).2.1
      · rcases List.mem_singleton.mp h with rfl
        decide
    simp only [parseMechanism, hdata, he, hc, hs, drop_after_append_nil]
    simp
  · have hdata : (n ++ "=").data = n.data ++ ['='] := by
      simp [data_append, show ("=" : String).data = ['='] from rfl]
    have he : charIdx (n.data ++ ['=']) '=' = some n.data.length :=
      charIdx_append_first (fun c h => (hn c h).2.2)
    simp only [parseMechanism, hdata, he, drop_after_append_nil]
    simp
  · have hdata : (n ++ "/").data = n.data ++ ['/'] := by
      simp [data_append, show ("/" : String).data = ['/'] from rfl]
    have he : charIdx (n.data ++ ['/']) '=' = none := by
      apply charIdx_eq_none
      intro c hc
      rcases List.mem_append.mp hc with h | h
      · exact (hn c h).2.2
      · rcases List.mem_singleton.mp h with rfl
        decide
    have hc : charIdx (n.data ++ ['/']) ':' = none := by
      apply charIdx_eq_none
      intro c hc
      rcases List.mem_append.mp hc with h | h
      · exact (hn c h).1
      · rcases List.mem_singleton.mp h with rfl
        decide
    have hs : charIdx (n.data ++ ['/']) '/' = some n.data.length :=
      charIdx_append_first (fun c h => (hn c h).2.1)
    simp only [parseMechanism, hdata, he, hc, hs, drop_after_append_nil]
    simp
  · have hassoc : n.data ++ ':' :: (d.data ++ ['/']) =
        (n.data ++ ':' :: d.data) ++ ['/'] := by
      simp
    have hdata : (n ++ ":" ++ d ++ "/").data = n.data ++ ':' :: (d.data ++ ['/']) := by
      simp [data_append, show (":" : String).data = [':'] from rfl,
        show ("/" : String).data = ['/'] from rfl]
    have he : charIdx (n.data ++ ':' :: (d.data ++ ['/'])) '=' = none := by
      apply charIdx_eq_none
      intro c hc
      rcases List.mem_append.mp hc with h | h
      · exact (hn c h).2.2
      · rcases List.mem_cons.mp h with rfl | h
        · decide
        · rcases List.mem_append.mp h with h | h
          · exact (hd c h).2.2
          · rcases List.mem_singleton.mp h with rfl
            decide
    have hc : charIdx (n.data ++ ':' :: (d.data ++ ['/'])) ':' =
        some n.data.length :=
      charIdx_append_first (fun c h => (hn c h).1)
    have hs : charIdx (n.data ++ ':' :: (d.data ++ ['/'])) '/' =
        some (n.data ++ ':' :: d.data).length := by
      rw [hassoc]
      exact charIdx_append_first
        (fun c h => by
          rcases List.mem_append.mp h with h | h
          · exact (hn c h).2.1
          · rcases List.mem_cons.mp h with rfl | h
            · decide
            · exact (hd c h).2.1)
    have hlt : n.data.length < (n.data ++ ':' :: d.data).length := by
      simp
    have hdrop2 : (n.data ++ ':' :: (d.data ++ ['/'])).drop
        ((n.data ++ ':' :: d.data).length + 1) = [] := by
      rw [hassoc]
      exact drop_after_append_nil
    simp only [parseMechanism, hdata, he, hc, hs, hdrop2]
    rw [if_pos hlt]
    simp

/-- Witness for C6: the tokens `ip4:`, `include:`, `redirect=` and
`ip4:127.0.0.1/` are all rejected with the invalid-mechanism error. -/
theorem spf_c6_witness :
    parseMechanism .Pass ("ip4" ++ ":") "dom" = .error .InvalidMechanism ∧
    parseMechanism .Pass ("include" ++ ":") "dom" = .error .InvalidMechanism ∧
    parseMechanism .Pass ("redirect" ++ "=") "dom" = .error .InvalidMechanism ∧
    parseMechanism .Pass ("ip4" ++ ":" ++ "127.0.0.1" ++ "/") "dom" =
      .error .InvalidMechanism := by
  refine ⟨?_, ?_, ?_, ?_⟩
  · exact (spf_c6_empty_segments .Pass "ip4" "127.0.0.1" "dom"
      (by decide) (by decide)).1
  · exact (spf_c6_empty_segments .Pass "include" "127.0.0.1" "dom"
      (by decide) (by decide)).1
  · exact (spf_c6_empty_segments .Pass "redirect" "127.0.0.1" "dom"
      (by decide) (by decide)).2.1
  · exact (spf_c6_empty_segments .Pass "ip4" "127.0.0.1" "dom"
      (by decide) (by decide)).2.2.2

/-! ### Round-trip rendering -/

/-- The normalization of the round-trip property: the default `+` sigil
is omitted on render. -/
def normSigil (sig : String) : String := if sig = "+" then "" else sig

/-- On the `all` kind the sigil is always rendered, the default as `+`. -/
def allSigil (sig : String) : String := if sig = "" then "+" else sig

/-- The qualifier `NewMechanism` maps a sigil to. -/
def sigResult (sig : String) : Result :=
  if sig = "-" then .Fail
  else if sig = "~" then .SoftFail
  else if sig = "?" then .Neutral
  else .Pass

theorem NewMechanism_dash (rest dom : String) :
    NewMechanism ("-" ++ rest) dom = some (parseMechanism .Fail rest dom) := by
  have hdata : ("-" ++ rest).data = '-' :: rest.data := by
    simp [data_append, show ("-" : String).data = ['-'] from rfl]
  simp only [NewMechanism, hdata]
  simp [mk_data]

theorem NewMechanism_tilde (rest dom : String) :
    NewMechanism ("~" ++ rest) dom = some (parseMechanism .SoftFail rest dom) := by
  have hdata : ("~" ++ rest).data = '~' :: rest.data := by
    simp [data_append, show ("~" : String).data = ['~'] from rfl]
  simp only [NewMechanism, hdata]
  simp [mk_data]

theorem NewMechanism_plus (rest dom : String) :
    NewMechanism ("+" ++ rest) dom = some (parseMechanism .Pass rest dom) := by
  have hdata : ("+" ++ rest).data = '+' :: rest.data := by
    simp [data_append, show ("+" : String).data = ['+'] from rfl]
  simp only [NewMechanism, hdata]
  simp [mk_data]

theorem NewMechanism_question (rest dom : String) :
    NewMechanism ("?" ++ rest) dom = some (parseMechanism .Neutral rest dom) := by
  have hdata : ("?" ++ rest).data = '?' :: rest.data := by
    simp [data_append, show ("?" : String).data = ['?'] from rfl]
  simp only [NewMechanism, hdata]
  simp [mk_data]

theorem NewMechanism_nosigil (str dom : String) (h0 : str.data ≠ [])
    (h1 : str.data.head? ≠ some '-') (h2 : str.data.head? ≠ some '~')
    (h3 : str.data.head? ≠ some '+') (h4 : str.data.head? ≠ some '?') :
    NewMechanism str dom = some (parseMechanism .Pass str dom) := by
  cases hl : str.data with
  | nil => exact absurd hl h0
  | cons c t =>
    have hh : str.data.head? = some c := by rw [hl]; rfl
    have g1 : c ≠ '-' := fun hEq => h1 (by rw [hh, hEq])
    have g2 : c ≠ '~' := fun hEq => h2 (by rw [hh, hEq])
    have g3 : c ≠ '+' := fun hEq => h3 (by rw [hh, hEq])
    have g4 : c ≠ '?' := fun hEq => h4 (by rw [hh, hEq])
    simp only [NewMechanism, hl]
    rw [if_neg g1, if_neg g2, if_neg g3, if_neg g4]

theorem NewMechanism_sig (sig : String)
    (hs : sig ∈ (["", "+", "-", "~", "?"] : List String)) (tok dom : String)
    (h0 : tok.data ≠ []) (h1 : tok.data.head? ≠ some '-')
    (h2 : tok.data.head? ≠ some '~') (h3 : tok.data.head? ≠ some '+')
    (h4 : tok.data.head? ≠ some '?') :
    NewMechanism (sig ++ tok) dom =
      some (parseMechanism (sigResult sig) tok dom) := by
  simp only [List.mem_cons, List.not_mem_nil, or_false] at hs
  rcases hs with rfl | rfl | rfl | rfl | rfl
  · rw [show ("" ++ tok) = tok from strData_eq (by simp [data_append])]
    exact NewMechanism_nosigil tok dom h0 h1 h2 h3 h4
  · exact NewMechanism_plus tok dom
  · exact NewMechanism_dash tok dom
  · exact NewMechanism_tilde tok dom
  · exact NewMechanism_question tok dom

theorem resultTag_sig (sig : String)
    (hs : sig ∈ (["", "+", "-", "~", "?"] : List String))
    (n d p : String) (c : Nat) :
    Mechanism.ResultTag ⟨n, d, p, sigResult sig, c⟩ = allSigil sig := by
  simp only [List.mem_cons, List.not_mem_nil, or_false] at hs
  rcases hs with rfl | rfl | rfl | rfl | rfl <;> rfl

theorem normSigil_of_allSigil (sig : String)
    (hs : sig ∈ (["", "+", "-", "~", "?"] : List String)) :
    (if allSigil sig ≠ "+" then allSigil sig else "") = normSigil sig := by
  simp only [List.mem_cons, List.not_mem_nil, or_false] at hs
  rcases hs with rfl | rfl | rfl | rfl | rfl <;> decide

theorem SPFString_default (m : Mechanism) (h1 : m.Name ≠ "redirect")
    (h2 : m.Name ≠ "all") :
    m.SPFString =
      (if m.ResultTag ≠ "+" then m.ResultTag else "") ++ m.Name ++
      (if m.Domain ≠ "" then ":" ++ m.Domain else "") ++
      (if m.Prefix ≠ "" then "/" ++ m.Prefix else "") := by
  simp only [Mechanism.SPFString]
  rw [if_neg h1, if_neg h2]

/-- Counterexample to C9 as stated: `~all/24` is a syntactically valid
directive token (the parser accepts it and `Valid` holds) with no
default `+` sigil to normalize, not a redirect, and its dropped segment
is the prefix, which no normalization clause of the claim covers — yet
it renders as `~all`.  Likewise `-redirect=example.com` renders as
`redirect=example.com`, dropping the `Fail` qualifier, which the
default-`+` normalization does not cover. -/
theorem spf_c9_counterexample :
    NewMechanism "~all/24" "google.com" =
      some (.ok ⟨"all", "google.com", "24", .SoftFail, 0⟩) ∧
    Mechanism.Valid ⟨"all", "google.com", "24", .SoftFail, 0⟩ = true ∧
    roundTrip "~all/24" "google.com" = some "~all" ∧
    "~all" ≠ "~all/24" ∧
    roundTrip "-redirect=example.com" "x.com" = some "redirect=example.com" ∧
    "redirect=example.com" ≠ "-redirect=example.com" := by
  exact ⟨rfl, by decide, rfl, by decide, rfl, by decide⟩

/-- C9 (amended): parsing then rendering is the identity on directive
tokens up to the rendering conventions of `SPFString` — for a kind other
than `redirect` and `all`, a token with an explicit domain (and optional
prefix) round-trips with the default `+` sigil omitted, and a token that
omits its domain round-trips (sigil normalized the same way) when the
inherited default domain is empty (a non-empty inherited domain is
rendered back as `:domain`); a sigil-free `redirect=domain` token
round-trips unchanged (sigil and prefix would be dropped); `all`
round-trips to sigil-plus-`all` with the `+` sigil always rendered. -/
theorem spf_c9_roundtrip_amended (sig n d p dom : String)
    (hs : sig ∈ (["", "+", "-", "~", "?"] : List String))
    (hn : ∀ c ∈ n.data, c ≠ ':' ∧ c ≠ '/' ∧ c ≠ '=')
    (hn0 : n ≠ "")
    (hh1 : n.data.head? ≠ some '-') (hh2 : n.data.head? ≠ some '~')
    (hh3 : n.data.head? ≠ some '+') (hh4 : n.data.head? ≠ some '?')
    (hnr : n ≠ "redirect") (hna : n ≠ "all")
    (hd : ∀ c ∈ d.data, c ≠ ':' ∧ c ≠ '/' ∧ c ≠ '=') (hd0 : d ≠ "")
    (hp : ∀ c ∈ p.data, c ≠ ':' ∧ c ≠ '/' ∧ c ≠ '=') (hp0 : p ≠ "") :
    roundTrip (sig ++ (n ++ ":" ++ d)) dom =
      some (normSigil sig ++ (n ++ ":" ++ d)) ∧
    roundTrip (sig ++ (n ++ ":" ++ d ++ "/" ++ p)) dom =
      some (normSigil sig ++ (n ++ ":" ++ d ++ "/" ++ p)) ∧
    roundTrip (sig ++ n) "" = some (normSigil sig ++ n) ∧
    roundTrip (sig ++ (n ++ "/" ++ p)) "" =
      some (normSigil sig ++ (n ++ "/" ++ p)) ∧
    roundTrip ("redirect" ++ "=" ++ d) dom = some ("redirect" ++ "=" ++ d) ∧
    roundTrip (sig ++ "all") dom = some (allSigil sig ++ "all") := by
  have hn0' : n.data ≠ [] := ne_empty_data hn0
  refine ⟨?_, ?_, ?_, ?_, ?_, ?_⟩
  · have hdT : (n ++ ":" ++ d).data = n.data ++ ((":" : String).data ++ d.data) := by
      simp [data_append]
    have h0T : (n ++ ":" ++ d).data ≠ [] := by
      rw [hdT]
      intro hx
      exact hn0' (List.append_eq_nil.mp hx).1
    have hhT : (n ++ ":" ++ d).data.head? = n.data.head? := by
      rw [hdT]
      exact head_append_ne_nil hn0'
    simp only [roundTrip,
      NewMechanism_sig sig hs (n ++ ":" ++ d) dom h0T
        (by rw [hhT]; exact hh1) (by rw [hhT]; exact hh2)
        (by rw [hhT]; exact hh3) (by rw [hhT]; exact hh4),
      parseMechanism_colon (sigResult sig) n d dom hn hd hd0]
    simp only [Mechanism.SPFString]
    rw [if_neg hnr, if_neg hna, resultTag_sig sig hs,
      normSigil_of_allSigil sig hs, if_pos hd0, if_neg (fun h => h rfl)]
    simp only [Option.some.injEq]
    apply strData_eq
    simp [data_append]
  · have hdT : (n ++ ":" ++ d ++ "/" ++ p).data =
        n.data ++ ((":" : String).data ++ d.data ++ (("/" : String).data ++ p.data)) := by
      simp [data_append]
    have h0T : (n ++ ":" ++ d ++ "/" ++ p).data ≠ [] := by
      rw [hdT]
      intro hx
      exact hn0' (List.append_eq_nil.mp hx).1
    have hhT : (n ++ ":" ++ d ++ "/" ++ p).data.head? = n.data.head? := by
      rw [hdT]
      exact head_append_ne_nil hn0'
    simp only [roundTrip,
      NewMechanism_sig sig hs (n ++ ":" ++ d ++ "/" ++ p) dom h0T
        (by rw [hhT]; exact hh1) (by rw [hhT]; exact hh2)
        (by rw [hhT]; exact hh3) (by rw [hhT]; exact hh4),
      parseMechanism_colon_slash (sigResult sig) n d p dom hn hd hp hd0 hp0]
    simp only [Mechanism.SPFString]
    rw [if_neg hnr, if_neg hna, resultTag_sig sig hs,
      normSigil_of_allSigil sig hs, if_pos hd0, if_pos hp0]
    simp only [Option.some.injEq]
    apply strData_eq
    simp [data_append]
  · simp only [roundTrip,
      NewMechanism_sig sig hs n "" hn0' hh1 hh2 hh3 hh4,
      parseMechanism_bare (sigResult sig) n "" hn]
    simp only [Mechanism.SPFString]
    rw [if_neg hnr, if_neg hna, resultTag_sig sig hs,
      normSigil_of_allSigil sig hs, if_neg (fun h => h rfl),
      if_neg (fun h => h rfl)]
    simp only [Option.some.injEq]
    apply strData_eq
    simp [data_append]
  · have hdT : (n ++ "/" ++ p).data = n.data ++ (("/" : String).data ++ p.data) := by
      simp [data_append]
    have h0T : (n ++ "/" ++ p).data ≠ [] := by
      rw [hdT]
      intro hx
      exact hn0' (List.append_eq_nil.mp hx).1
    have hhT : (n ++ "/" ++ p).data.head? = n.data.head? := by
      rw [hdT]
      exact head_append_ne_nil hn0'
    simp only [roundTrip,
      NewMechanism_sig sig hs (n ++ "/" ++ p) "" h0T
        (by rw [hhT]; exact hh1) (by rw [hhT]; exact hh2)
        (by rw [hhT]; exact hh3) (by rw [hhT]; exact hh4),
      parseMechanism_slash (sigResult sig) n p "" hn hp hp0]
    simp only [Mechanism.SPFString]
    rw [if_neg hnr, if_neg hna, resultTag_sig sig hs,
      normSigil_of_allSigil sig hs, if_neg (fun h => h rfl), if_pos hp0]
    simp only [Option.some.injEq]
    apply strData_eq
    simp [data_append]
  · have h0T : ("redirect" ++ "=" ++ d).data ≠ [] := by
      rw [data_append]
      intro hx
      exact absurd (List.append_eq_nil.mp hx).1 (by decide)
    have hhT : ("redirect" ++ "=" ++ d).data.head? = some 'r' := by
      rw [data_append, head_append_ne_nil (by decide)]
      decide
    simp only [roundTrip,
      NewMechanism_nosigil ("redirect" ++ "=" ++ d) dom h0T
        (by rw [hhT]; decide) (by rw [hhT]; decide) (by rw [hhT]; decide)
        (by rw [hhT]; decide),
      parseMechanism_eq .Pass "redirect" d dom (by decide) hd0]
    simp only [Mechanism.SPFString]
    rw [if_pos trivial]
  · simp only [roundTrip,
      NewMechanism_sig sig hs "all" dom (by decide) (by decide) (by decide)
        (by decide) (by decide),
      parseMechanism_bare (sigResult sig) "all" dom (by decide)]
    simp only [Mechanism.SPFString]
    rw [if_pos trivial, resultTag_sig sig hs]
    simp

/-- Witness for C9 (amended): `~mx:d.com/24` round-trips to itself, a
default-qualifier `+mx:d.com` renders without the sigil, bare `all`
renders as `+all`, and `redirect=d.com` is unchanged. -/
theorem spf_c9_witness :
    roundTrip ("~" ++ ("mx" ++ ":" ++ "d.com" ++ "/" ++ "24")) "g.com" =
      some (normSigil "~" ++ ("mx" ++ ":" ++ "d.com" ++ "/" ++ "24")) ∧
    roundTrip ("+" ++ ("mx" ++ ":" ++ "d.com")) "g.com" =
      some (normSigil "+" ++ ("mx" ++ ":" ++ "d.com")) ∧
    roundTrip ("" ++ "all") "g.com" = some (allSigil "" ++ "all") ∧
    roundTrip ("redirect" ++ "=" ++ "d.com") "g.com" =
      some ("redirect" ++ "=" ++ "d.com") := by
  refine ⟨?_, ?_, ?_, ?_⟩
  · exact (spf_c9_roundtrip_amended "~" "mx" "d.com" "24" "g.com" (by decide)
      (by decide) (by decide) (by decide) (by decide) (by decide) (by decide)
      (by decide) (by decide) (by decide) (by decide) (by decide) (by decide)).2.1
  · exact (spf_c9_roundtrip_amended "+" "mx" "d.com" "24" "g.com" (by decide)
      (by decide) (by decide) (by decide) (by decide) (by decide) (by decide)
      (by decide) (by decide) (by decide) (by decide) (by decide) (by decide)).1
  · exact (spf_c9_roundtrip_amended "" "mx" "d.com" "24" "g.com" (by decide)
      (by decide) (by decide) (by decide) (by decide) (by decide) (by decide)
      (by decide) (by decide) (by decide) (by decide) (by decide) (by decide)).2.2.2.2.2
  · exact (spf_c9_roundtrip_amended "" "mx" "d.com" "24" "g.com" (by decide)
      (by decide) (by decide) (by decide) (by decide) (by decide) (by decide)
      (by decide) (by decide) (by decide) (by decide) (by decide) (by decide)).2.2.2.2.1

end Spf
